import Mathlib

/-!
Shallow embedding of the scheduling core of the staff_scheduler repository
(src/models/scheduler.py, src/models/schedule.py, src/models/rules.py,
src/models/availability.py, src/database/manager.py).

Modelling conventions:
* Calendar dates are day numbers (Int), ordered as integers; one day is 1.
  The weekday of day n is n mod 7 (Monday = 0, as in Python date.weekday,
  for an epoch chosen so that day 0 is a Monday).
* Python exceptions are modelled with an Except monad over the PyErr type;
  every fallible step returns Except PyErr.
* Python dicts keyed by slot or employee id are modelled as association
  lists in insertion order, which is the iteration order of Python dicts.
* The two defaultdict side effects that only ever create keys holding an
  empty list (the lookup of employee shift counts inside the sort key of
  _get_available_employees, and the slot lookups inside _evaluate_schedule)
  are elided: a key holding an empty list behaves exactly like an absent
  key in every later read (length 0, no produced assignment, no swap), so
  the elision is observationally equivalent; this is noted again at each
  affected definition.
-/

inductive PyErr
  | attributeError
  | typeError
  | valueError
  | keyError
  | stopIteration
deriving DecidableEq

instance {ε α : Type} [DecidableEq ε] [DecidableEq α] : DecidableEq (Except ε α) := fun a b =>
  match a, b with
  | .error e, .error e' =>
      match decEq e e' with
      | isTrue h => isTrue (by rw [h])
      | isFalse h => isFalse (by intro hc; cases hc; exact h rfl)
  | .error _, .ok _ => isFalse (by intro hc; cases hc)
  | .ok _, .error _ => isFalse (by intro hc; cases hc)
  | .ok a, .ok a' =>
      match decEq a a' with
      | isTrue h => isTrue (by rw [h])
      | isFalse h => isFalse (by intro hc; cases hc; exact h rfl)

/-- Day numbers standing for calendar dates. -/
abbrev Date := Int

/-- Python date.weekday for the embedded dates: 0 = Monday .. 6 = Sunday. -/
def weekdayOf (d : Date) : Int := d.emod 7

/-- List of dates in the scheduling period, from _date_range: the while loop
collects start_date, start_date + 1, ... while the current date is at most
end_date, so it yields (end - start + 1) dates when start is at most end and
nothing otherwise. -/
def dateRange (start_date end_date : Date) : List Date :=
  (List.range (end_date - start_date + 1).toNat).map (fun i => start_date + (i : Int))

/-- ShiftType from src/models/schedule.py: GRAVES, SWINGS, DAYS. -/
inductive ShiftType
  | graves
  | swings
  | days
deriving DecidableEq

/-- ShiftType.min_staff_required: 4 for GRAVES and SWINGS, else 1. -/
def ShiftType.min_staff_required : ShiftType → Nat
  | .graves => 4
  | .swings => 4
  | .days => 1

/-- Iteration order of the ShiftType enumeration (definition order). -/
def ShiftType.all : List ShiftType := [.graves, .swings, .days]

/-- ShiftPreference from src/database/manager.py. It is a distinct Enum class
from ShiftType even though three member names coincide. -/
inductive ShiftPreference
  | graves
  | swings
  | days
  | no_preference
deriving DecidableEq

/-- Python equality between a ShiftPreference member and a ShiftType member.
Enum members compare by identity and these are members of two distinct Enum
classes, so every cross-class comparison evaluates to False at runtime,
whatever the member names are. -/
def ShiftPreference.pyEqShiftType : ShiftPreference → ShiftType → Bool
  | _, _ => false

/-- Employee from src/database/manager.py. The fields the scheduler never
reads (email, hire date) are omitted. -/
structure Employee where
  id : Int
  first_name : String
  last_name : String
  shift_preference : ShiftPreference
  fixed_days_off : List Int
  is_active : Bool
deriving DecidableEq

def Employee.full_name (e : Employee) : String := e.first_name ++ (" ") ++ e.last_name

/-- TimeOffRequestStatus from src/models/availability.py. -/
inductive TimeOffRequestStatus
  | pending
  | approved
  | denied
  | cancelled
deriving DecidableEq

/-- TimeOffRequest from src/models/availability.py; the request type and
notes fields are never read by the scheduler and are omitted. -/
structure TimeOffRequest where
  employee_id : Int
  start_date : Date
  end_date : Date
  status : TimeOffRequestStatus
deriving DecidableEq

/-- RuleType from src/models/rules.py. -/
inductive RuleType
  | min_staff
  | consecutive_days
  | shift_spacing
  | skill_requirement
  | max_shifts
deriving DecidableEq

/-- SchedulingRule from src/models/rules.py. The heterogeneous parameter
dict is modelled as a keyed list of integers: the scheduler only ever tests
key presence and reads numeric parameters. -/
structure SchedulingRule where
  rule_type : RuleType
  priority : Int
  parameters : List (String × Int)
  is_active : Bool
deriving DecidableEq

/-- Required parameter keys per rule type, from _validate_parameters. -/
def requiredParams : RuleType → List String
  | .min_staff => ["shift_type", "min_count"]
  | .consecutive_days => ["min_days"]
  | .shift_spacing => ["min_hours"]
  | .skill_requirement => ["shift_type", "required_skills"]
  | .max_shifts => ["period_days", "max_count"]

/-- The presence check performed by SchedulingRule._validate_parameters:
every required parameter key for the rule type occurs in the parameter
dict (construction raises ValueError otherwise). -/
def SchedulingRule.paramsValid (r : SchedulingRule) : Bool :=
  (requiredParams r.rule_type).all (fun k => ((r.parameters.find? (fun prm => prm.1 == k)).isSome))

/-- Python dict subscript access on a rule parameter bag: KeyError when the
key is absent. -/
def pyDictGet (parameters : List (String × Int)) (key : String) : Except PyErr Int :=
  match parameters.find? (fun prm => prm.1 == key) with
  | some prm => .ok prm.2
  | none => .error .keyError

/-- ScheduleStatus from src/models/schedule.py. -/
inductive ScheduleStatus
  | draft
  | published
  | archived
deriving DecidableEq

/-- ShiftAssignment output record (id and notes omitted: the scheduler
always produces id None and notes None). -/
structure ShiftAssignment where
  employee_id : Int
  date : Date
  shift_type : ShiftType
  schedule_id : Int
deriving DecidableEq

/-- SchedulePeriod output aggregate (id and the two wall-clock timestamps
omitted). -/
structure SchedulePeriod where
  start_date : Date
  end_date : Date
  status : ScheduleStatus
  shifts : List ShiftAssignment
deriving DecidableEq

/-- SchedulingScore from src/models/scheduler.py. The Python field
total_score is annotated float but always holds the negation of an integer
sum, so it is modelled as Int. -/
structure SchedulingScore where
  total_score : Int
  unfilled_shifts : Nat
  preference_mismatches : Nat
  rule_violations : List String
deriving DecidableEq

/-- Constructor arguments of ScheduleGenerator. -/
structure GenInput where
  start_date : Date
  end_date : Date
  employees : List Employee
  rules : List SchedulingRule
  time_off_requests : List TimeOffRequest
deriving DecidableEq

/-- Stable insertion of a rule into a list sorted by priority descending:
an element moves past another only when its priority is strictly larger,
which reproduces the stable Python sorted(..., reverse=True). -/
def insertRuleDesc (x : SchedulingRule) : List SchedulingRule → List SchedulingRule
  | [] => [x]
  | y :: ys => if x.priority > y.priority then x :: y :: ys else y :: insertRuleDesc x ys

/-- The rule list as stored on the generator: sorted by priority, highest
first, stably (ScheduleGenerator.__init__). -/
def sortedRules (g : GenInput) : List SchedulingRule :=
  g.rules.foldl (fun acc r => insertRuleDesc r acc) []

/-- Lookup in the availability map built by _build_availability_map, at a
key (d, employee_id). The map initializes every (window date, active
employee id) to True, then sets False on every date covered by an APPROVED
time-off request of that employee id, then sets False on every window date
whose weekday lies in the fixed days off of an active employee with that
id. Later marks never re-enable availability. The scheduler only ever
reads keys of active employees at window dates, where this function agrees
with the dict. -/
def isAvailableId (g : GenInput) (d : Date) (employee_id : Int) : Bool :=
  !(g.time_off_requests.any (fun r =>
      r.status == .approved && r.employee_id == employee_id
        && decide (r.start_date ≤ d) && decide (d ≤ r.end_date)))
  && !(g.employees.any (fun e =>
      e.is_active && e.id == employee_id && e.fixed_days_off.contains (weekdayOf d)))

/-- Mutable working state of one generation run: the two co-maintained
defaultdict maps, as association lists in insertion order. -/
structure AssignState where
  shift_assignments : List ((Date × ShiftType) × List Int)
  employee_shifts : List (Int × List (Date × ShiftType))
deriving DecidableEq

/-- Read of a slot key: an absent key reads as the empty list (defaultdict). -/
def lookupSlot (st : AssignState) (k : Date × ShiftType) : List Int :=
  ((st.shift_assignments.find? (fun p => p.1 == k)).map (fun p => p.2)).getD []

/-- Read of an employee key: an absent key reads as the empty list. -/
def lookupEmp (st : AssignState) (employee_id : Int) : List (Date × ShiftType) :=
  ((st.employee_shifts.find? (fun p => p.1 == employee_id)).map (fun p => p.2)).getD []

/-- Write of a slot key: update in place when present, else append at the
end of the dict order (a defaultdict access creates missing keys at the
end). -/
def setSlot (st : AssignState) (k : Date × ShiftType) (v : List Int) : AssignState :=
  if (st.shift_assignments.find? (fun p => p.1 == k)).isSome then
    { st with shift_assignments := st.shift_assignments.map (fun p => if p.1 == k then (k, v) else p) }
  else
    { st with shift_assignments := st.shift_assignments ++ [(k, v)] }

/-- Write of an employee key, like setSlot. -/
def setEmp (st : AssignState) (employee_id : Int) (v : List (Date × ShiftType)) : AssignState :=
  if (st.employee_shifts.find? (fun p => p.1 == employee_id)).isSome then
    { st with employee_shifts := st.employee_shifts.map (fun p => if p.1 == employee_id then (employee_id, v) else p) }
  else
    { st with employee_shifts := st.employee_shifts ++ [(employee_id, v)] }

/-- The _assign_shift method: append the employee id to the slot list and
the slot to the employee list. -/
def assignShift (st : AssignState) (employee_id : Int) (shift_date : Date) (shift_type : ShiftType) : AssignState :=
  let st1 := setSlot st (shift_date, shift_type) (lookupSlot st (shift_date, shift_type) ++ [employee_id])
  setEmp st1 employee_id (lookupEmp st1 employee_id ++ [(shift_date, shift_type)])

/-- Python list.remove on a slot list: drops the first occurrence, raises
ValueError when the element is absent. -/
def removeSlotEntry (st : AssignState) (k : Date × ShiftType) (employee_id : Int) : Except PyErr AssignState :=
  let l := lookupSlot st k
  if l.contains employee_id then .ok (setSlot st k (l.erase employee_id))
  else .error .valueError

/-- Python list.remove on an employee list. -/
def removeEmpEntry (st : AssignState) (employee_id : Int) (k : Date × ShiftType) : Except PyErr AssignState :=
  let l := lookupEmp st employee_id
  if l.contains k then .ok (setEmp st employee_id (l.erase k))
  else .error .valueError

/-- Body of the rule loop of _violates_constraints. For an active
CONSECUTIVE_DAYS rule the parameter read precedes the method call, so a
missing min_days key raises KeyError first; in every other reachable case
the attribute lookup of the undefined helper methods
_would_violate_consecutive_days, _would_exceed_max_shifts and
_would_violate_shift_spacing (none of which is defined anywhere on
ScheduleGenerator) raises AttributeError. Active MIN_STAFF and
SKILL_REQUIREMENT rules match no branch and are skipped. -/
def violatesGo : List SchedulingRule → Except PyErr Bool
  | [] => .ok false
  | r :: rs =>
    if !r.is_active then violatesGo rs
    else
      match r.rule_type with
      | .consecutive_days =>
          match pyDictGet r.parameters ("min_days") with
          | .error e => .error e
          | .ok _ => .error .attributeError
      | .max_shifts => .error .attributeError
      | .shift_spacing => .error .attributeError
      | _ => violatesGo rs

/-- The _violates_constraints method. The assignment state and the
candidate employee, date and shift type are threaded for signature
fidelity, but the undefined helpers raise before any of them is consumed. -/
def violatesConstraints (g : GenInput) (st : AssignState) (employee_id : Int)
    (shift_date : Date) (shift_type : ShiftType) : Except PyErr Bool :=
  violatesGo (sortedRules g)

/-- The generator expression next(e for e in employees if e.id == id):
StopIteration when no employee carries the id. -/
def pyNextEmployee (employees : List Employee) (employee_id : Int) : Except PyErr Employee :=
  match employees.find? (fun e => e.id == employee_id) with
  | some e => .ok e
  | none => .error .stopIteration

/-- The _preference_score method: 1 when the employee preference equals the
shift type under Python equality, else 0. Because the comparison crosses
two distinct Enum classes it always yields 0. -/
def preferenceScore (g : GenInput) (employee_id : Int) (shift_type : ShiftType) : Except PyErr Int := do
  let employee ← pyNextEmployee g.employees employee_id
  pure (if employee.shift_preference.pyEqShiftType shift_type then 1 else 0)

/-- Strict lexicographic order on the (preference score, negated shift
count) sort keys; integer tuples are totally ordered so this comparison
never raises. -/
def lexLtKey (a b : Int × Int) : Bool :=
  a.1 < b.1 || (a.1 == b.1 && a.2 < b.2)

/-- Stable ascending insertion by sort key, matching Python sorted with a
key function (keys are computed once per element before sorting). -/
def insertKeyed (x : (Int × Int) × Int) : List ((Int × Int) × Int) → List ((Int × Int) × Int)
  | [] => [x]
  | y :: ys => if lexLtKey x.1 y.1 then x :: y :: ys else y :: insertKeyed x ys

def sortKeyed (l : List ((Int × Int) × Int)) : List ((Int × Int) × Int) :=
  l.foldl (fun acc x => insertKeyed x acc) []

/-- The _get_available_employees method: filter the roster to active
employees available on the date whose prospective assignment violates no
rule, then sort ascending by the key (preference score, minus current
shift count). Note the ascending order: a preference match (score 1) sorts
AFTER a non-match, and a larger current load sorts FIRST. The defaultdict
key creation performed by the shift-count lookup is elided (see header).
This definition is the loop body of the roster filter. -/
def availFilterStep (g : GenInput) (st : AssignState) (shift_date : Date) (shift_type : ShiftType)
    (acc : List Int) (e : Employee) : Except PyErr (List Int) :=
  if !e.is_active then pure acc
  else if !(isAvailableId g shift_date e.id) then pure acc
  else do
    let v ← violatesConstraints g st e.id shift_date shift_type
    if v then pure acc else pure (acc ++ [e.id])

/-- The _get_available_employees method built from availFilterStep and the
keyed stable sort. -/
def getAvailableEmployees (g : GenInput) (st : AssignState) (shift_date : Date)
    (shift_type : ShiftType) : Except PyErr (List Int) := do
  let available ← g.employees.foldlM (availFilterStep g st shift_date shift_type) ([] : List Int)
  let keyed ← available.mapM (fun x => do
      let p ← preferenceScore g x shift_type
      pure ((p, -(Int.ofNat (lookupEmp st x).length)), x))
  pure ((sortKeyed keyed).map (fun kx => kx.2))

/-- The _generate_required_shifts method: one entry per required staff
slot, dates outermost, shift types in enumeration order. -/
def generateRequiredShifts (g : GenInput) : List (Date × ShiftType) :=
  (dateRange g.start_date g.end_date).flatMap (fun current =>
    ShiftType.all.flatMap (fun shift_type =>
      List.replicate shift_type.min_staff_required (current, shift_type)))

/-- Python < on two difficulty entries (count, (date, shiftType)). Tuples
compare by the first non-equal component; when that component is a pair of
equal dates and two distinct ShiftType members, the member comparison
raises TypeError because the Enum class defines no ordering. -/
def pyLtScore : (Int × Date × ShiftType) → (Int × Date × ShiftType) → Except PyErr Bool
  | (c1, d1, t1), (c2, d2, t2) =>
    if c1 == c2 then
      if d1 == d2 then
        if t1 == t2 then .ok false
        else .error .typeError
      else .ok (decide (d1 < d2))
    else .ok (decide (c1 < c2))

/-- Stable insertion with the fallible Python comparison. -/
def pyInsertScore (x : Int × Date × ShiftType) :
    List (Int × Date × ShiftType) → Except PyErr (List (Int × Date × ShiftType))
  | [] => .ok [x]
  | y :: ys => do
    let lt ← pyLtScore x y
    if lt then .ok (x :: y :: ys)
    else do
      let rest ← pyInsertScore x ys
      .ok (y :: rest)

/-- Model of list.sort() on the difficulty entries: a stable comparison
sort that propagates TypeError from element comparisons. CPython timsort
compares the adjacent same-date GRAVES and SWINGS entries of the first
date block while detecting the initial run, so on the lists built by
_sort_shifts_by_difficulty it raises exactly when a same-count same-date
cross-type comparison exists, as this model does. -/
def pySortScores (l : List (Int × Date × ShiftType)) : Except PyErr (List (Int × Date × ShiftType)) :=
  l.foldlM (fun acc x => pyInsertScore x acc) []

/-- The _initial_assignment method: walk the slots in the given order and
assign the first element of the availability-sorted list, skipping slots
with no available employee. -/
def initialAssignment (g : GenInput) (st : AssignState) (shifts : List (Date × ShiftType)) :
    Except PyErr AssignState :=
  shifts.foldlM (fun st s => do
    let available ← getAvailableEmployees g st s.1 s.2
    match available with
    | [] => pure st
    | employee_id :: _ => pure (assignShift st employee_id s.1 s.2)) st

/-- Mismatch counting loop of _evaluate_schedule for one employee: the test
shift_type != employee.shift_preference compares a ShiftType member with a
ShiftPreference member, which is never equal, so every assigned shift
counts. -/
def countMismatches (employee : Employee) (shifts : List (Date × ShiftType)) (acc : Nat) : Nat :=
  shifts.foldl (fun m s =>
    if !(employee.shift_preference.pyEqShiftType s.2) then m + 1 else m) acc

/-- Rule loop of _evaluate_schedule for one employee: the first active rule
reaches the attribute lookup of the undefined _check_rule_violation and
raises AttributeError; inactive rules are skipped. The violation message
construction is unreachable. -/
def evalRulesGo : List SchedulingRule → List String → Except PyErr (List String)
  | [], violations => .ok violations
  | r :: rs, violations =>
    if !r.is_active then evalRulesGo rs violations
    else .error .attributeError

/-- One slot of the coverage loop of _evaluate_schedule: add required minus
assigned when the assigned count is below the requirement. -/
def unfilledStep (st : AssignState) (current : Date) (acc : Nat) (shift_type : ShiftType) : Nat :=
  if (lookupSlot st (current, shift_type)).length < shift_type.min_staff_required then
    acc + (shift_type.min_staff_required - (lookupSlot st (current, shift_type)).length)
  else acc

/-- Coverage loop of _evaluate_schedule over all window slots. -/
def countUnfilled (g : GenInput) (st : AssignState) : Nat :=
  (dateRange g.start_date g.end_date).foldl (fun acc current =>
    ShiftType.all.foldl (unfilledStep st current) acc) 0

/-- Body of the per-employee loop of _evaluate_schedule: find the employee
record, extend the mismatch count, then run the rule loop; either fallible
step propagates its exception. -/
def evalEmployeeStep (g : GenInput) (acc : Nat × List String)
    (entry : Int × List (Date × ShiftType)) : Except PyErr (Nat × List String) :=
  match pyNextEmployee g.employees entry.1 with
  | .error e => .error e
  | .ok employee =>
    match evalRulesGo (sortedRules g) acc.2 with
    | .error e => .error e
    | .ok v => .ok (countMismatches employee entry.2 acc.1, v)

/-- The _evaluate_schedule method. The defaultdict key creation of the
coverage loop is elided (see header). -/
def evaluateSchedule (g : GenInput) (st : AssignState) : Except PyErr SchedulingScore :=
  match st.employee_shifts.foldlM (evalEmployeeStep g) ((0 : Nat), ([] : List String)) with
  | .error e => .error e
  | .ok mv =>
    .ok { total_score := -((countUnfilled g st * 100 + mv.1 * 10 + mv.2.length * 50 : Nat) : Int),
          unfilled_shifts := countUnfilled g st,
          preference_mismatches := mv.1,
          rule_violations := mv.2 }

/-- The _try_swap method: remove both assignments, test the two crossed
placements against _violates_constraints only (availability is never
consulted), then either commit the crossed placements or restore the
original ones; restoration re-appends, moving both entries to the end of
their lists. -/
def trySwap (g : GenInput) (st : AssignState) (emp1 : Int) (date1 : Date) (type1 : ShiftType)
    (emp2 : Int) (date2 : Date) (type2 : ShiftType) : Except PyErr (Bool × AssignState) := do
  let st ← removeSlotEntry st (date1, type1) emp1
  let st ← removeSlotEntry st (date2, type2) emp2
  let st ← removeEmpEntry st emp1 (date1, type1)
  let st ← removeEmpEntry st emp2 (date2, type2)
  let v1 ← violatesConstraints g st emp2 date1 type1
  let v2 ← violatesConstraints g st emp1 date2 type2
  if !v1 && !v2 then
    pure (true, assignShift (assignShift st emp2 date1 type1) emp1 date2 type2)
  else
    pure (false, assignShift (assignShift st emp1 date1 type1) emp2 date2 type2)

/-- Innermost body of the optimizer pass: attempt a swap; on success keep
it when the re-evaluated total strictly exceeds the score recorded at the
start of the pass, otherwise swap back (the result of the reverting call
is discarded, as in the source). -/
def swapBody (g : GenInput) (current : SchedulingScore) (slot1 slot2 : Date × ShiftType)
    (emp1 emp2 : Int) (acc : AssignState × Bool) : Except PyErr (AssignState × Bool) := do
  let sw ← trySwap g acc.1 emp1 slot1.1 slot1.2 emp2 slot2.1 slot2.2
  if sw.1 then do
    let new_score ← evaluateSchedule g sw.2
    if new_score.total_score > current.total_score then
      pure (sw.2, true)
    else do
      let back ← trySwap g sw.2 emp2 slot1.1 slot1.2 emp1 slot2.1 slot2.2
      pure (back.2, acc.2)
  else
    pure (sw.2, acc.2)

/-- Iteration of for emp2 in employees2 by index over the live list, the
CPython list-iterator semantics: each step re-reads the current list and
stops when the index reaches its length. The fuel is the length at loop
entry; _try_swap leaves both list lengths unchanged on every path, so the
iteration count matches CPython exactly. -/
def empLoop2Go (g : GenInput) (current : SchedulingScore) (slot1 slot2 : Date × ShiftType)
    (emp1 : Int) : Nat → Nat → AssignState × Bool → Except PyErr (AssignState × Bool)
  | 0, _, acc => .ok acc
  | fuel + 1, i, acc =>
    let l := lookupSlot acc.1 slot2
    if h : i < l.length then do
      let emp2 := l.get ⟨i, h⟩
      let acc' ← swapBody g current slot1 slot2 emp1 emp2 acc
      empLoop2Go g current slot1 slot2 emp1 fuel (i + 1) acc'
    else .ok acc

/-- Iteration of for emp1 in employees1, like empLoop2Go one level up. -/
def empLoop1Go (g : GenInput) (current : SchedulingScore) (slot1 slot2 : Date × ShiftType) :
    Nat → Nat → AssignState × Bool → Except PyErr (AssignState × Bool)
  | 0, _, acc => .ok acc
  | fuel + 1, i, acc =>
    let l := lookupSlot acc.1 slot1
    if h : i < l.length then do
      let emp1 := l.get ⟨i, h⟩
      let acc' ← empLoop2Go g current slot1 slot2 emp1 (lookupSlot acc.1 slot2).length 0 acc
      empLoop1Go g current slot1 slot2 fuel (i + 1) acc'
    else .ok acc

/-- One pass of the while loop of _optimize_schedule: evaluate the current
score, then try swapping between every ordered pair of distinct slot
groups. The key set of the dict is stable during a pass (swaps only touch
lists at existing keys), so the items() iteration is a loop over the keys
snapshotted at pass start; the window keys that the pass-start evaluation
creates with empty lists are elided as in the header note. Returns the new
state and the improved flag. -/
def optimizePass (g : GenInput) (st : AssignState) : Except PyErr (AssignState × Bool) := do
  let current ← evaluateSchedule g st
  let keys := st.shift_assignments.map (fun p => p.1)
  keys.foldlM (fun acc1 slot1 =>
    keys.foldlM (fun acc2 slot2 =>
      if slot1 == slot2 then pure acc2
      else empLoop1Go g current slot1 slot2 (lookupSlot acc2.1 slot1).length 0 acc2) acc1)
    (st, false)

/-- The while loop of _optimize_schedule, fuel = remaining iterations out
of max_iterations = 1000. Returns the final state (or the propagated
exception) together with the final value of the iterations counter. -/
def optimizeLoop (g : GenInput) : Nat → AssignState → Nat → Except PyErr AssignState × Nat
  | 0, st, iterations => (.ok st, iterations)
  | fuel + 1, st, iterations =>
    match optimizePass g st with
    | .error e => (.error e, iterations)
    | .ok (st', improved) =>
      if improved then optimizeLoop g fuel st' (iterations + 1)
      else (.ok st', iterations + 1)

/-- The _optimize_schedule method. -/
def optimizeSchedule (g : GenInput) (st : AssignState) : Except PyErr AssignState × Nat :=
  optimizeLoop g 1000 st 0

/-- Warning list assembled by generate_schedule from the final score. -/
def buildWarnings (score : SchedulingScore) : List String :=
  (if score.unfilled_shifts > 0 then
    [("Unable to fill ") ++ toString score.unfilled_shifts ++ (" shifts")]
   else [])
  ++ score.rule_violations
  ++ (if score.preference_mismatches > 0 then
    [("Schedule contains ") ++ toString score.preference_mismatches ++ (" shift preference mismatches")]
     else [])

/-- The _create_shift_assignments method, including the ShiftAssignment
construction check that raises ValueError for a date before the generation
day (ShiftAssignment.__post_init__). -/
def createShiftAssignments (st : AssignState) (today : Date) : Except PyErr (List ShiftAssignment) :=
  st.shift_assignments.foldlM (fun acc entry =>
    entry.2.foldlM (fun acc2 employee_id =>
      if entry.1.1 < today then (.error .valueError : Except PyErr (List ShiftAssignment))
      else .ok (acc2 ++ [⟨employee_id, entry.1.1, entry.1.2, 0⟩])) acc) []

/-- SchedulePeriod construction including its __post_init__ checks: the
end date must be strictly after the start date and the start date must not
lie before the generation day, else ValueError. -/
def mkSchedulePeriod (g : GenInput) (today : Date) (shifts : List ShiftAssignment) :
    Except PyErr SchedulePeriod :=
  if g.start_date ≥ g.end_date then .error .valueError
  else if g.start_date < today then .error .valueError
  else .ok ⟨g.start_date, g.end_date, .draft, shifts⟩

/-- The generate_schedule method: build the requirement list, count
availability per slot against the empty initial state, sort the slots by
difficulty, run the greedy assignment, the optimizer and the final
evaluation, then materialize the SchedulePeriod and the warnings. Every
exception along the way propagates to the caller. This definition is the
per-slot availability count of _sort_shifts_by_difficulty. -/
def difficultyEntry (g : GenInput) (s : Date × ShiftType) : Except PyErr (Int × Date × ShiftType) := do
  let available ← getAvailableEmployees g ⟨[], []⟩ s.1 s.2
  pure (Int.ofNat available.length, s.1, s.2)

/-- The entry-building loop of _sort_shifts_by_difficulty: one difficulty
entry per required slot, in order, stopping at the first exception. -/
def difficultyList (g : GenInput) : List (Date × ShiftType) → Except PyErr (List (Int × Date × ShiftType))
  | [] => .ok []
  | s :: ss => do
    let x ← difficultyEntry g s
    let xs ← difficultyList g ss
    pure (x :: xs)

/-- The generate_schedule method body, continued after difficultyEntry. -/
def generateSchedule (g : GenInput) (today : Date) : Except PyErr (SchedulePeriod × List String) := do
  let shift_scores ← difficultyList g (generateRequiredShifts g)
  let sorted_scores ← pySortScores shift_scores
  let st1 ← initialAssignment g ⟨[], []⟩ (sorted_scores.map (fun x => x.2))
  let st2 ← (optimizeSchedule g st1).1
  let score ← evaluateSchedule g st2
  let warnings := buildWarnings score
  let shifts ← createShiftAssignments st2 today
  let schedule ← mkSchedulePeriod g today shifts
  pure (schedule, warnings)

/-! Concrete inputs used by the claim theorems below. -/

/-- An active employee with a stated GRAVES preference and no days off. -/
def alice : Employee := ⟨1, "Alice", "A", .graves, [], true⟩

/-- An active employee with no stated preference and no days off. -/
def bobND : Employee := ⟨2, "Bob", "B", .no_preference, [], true⟩

/-- One-day window, one employee, one active MAX_SHIFTS rule with
max_count = 3 (and its other required parameter present). -/
def gMax : GenInput :=
  ⟨10, 10, [alice], [⟨.max_shifts, 50, [("period_days", 7), ("max_count", 3)], true⟩], []⟩

/-- One-day window, one employee, one active MIN_STAFF rule. -/
def gMin : GenInput :=
  ⟨10, 10, [alice], [⟨.min_staff, 50, [("shift_type", 0), ("min_count", 1)], true⟩], []⟩

/-- Two-day window, one employee, no rules, no time off. -/
def gC3 : GenInput := ⟨10, 11, [alice], [], []⟩

/-- State in which employee 1 is already assigned the GRAVES shift of day 10. -/
def stC3 : AssignState := ⟨[((10, .graves), [1])], [(1, [(10, .graves)])]⟩

/-- Like alice but with weekday 4 as a fixed day off; day 11 has weekday 4. -/
def aliceOff : Employee := ⟨1, "Alice", "A", .graves, [4], true⟩

/-- Two-day window for the swap experiment: employee 1 cannot work day 11. -/
def gC4 : GenInput := ⟨10, 11, [aliceOff, bobND], [], []⟩

/-- Employee 1 holds the day-10 GRAVES shift, employee 2 the day-11 one. -/
def stC4 : AssignState :=
  ⟨[((10, .graves), [1]), ((11, .graves), [2])], [(1, [(10, .graves)]), (2, [(11, .graves)])]⟩

/-- Two-day window; employee 1 prefers GRAVES, employee 2 has no preference. -/
def gC5 : GenInput := ⟨9, 10, [alice, bobND], [], []⟩

/-- Employee 2 already holds one shift, employee 1 holds none. -/
def stC5 : AssignState := ⟨[((9, .days), [2])], [(2, [(9, .days)])]⟩

/-- Single-day window with start_date = end_date, no employees, no rules. -/
def gC6 : GenInput := ⟨10, 10, [], [], []⟩

/-- Three-day window, two employees, no rules, no time off. -/
def gC7 : GenInput := ⟨10, 12, [alice, bobND], [], []⟩

/-- Empty window input for the optimizer witness. -/
def gC8 : GenInput := ⟨1, 0, [], [], []⟩

/-- Two-day window, one employee, used with the scorer. -/
def gC9w : GenInput := ⟨10, 11, [alice], [], []⟩

/-- Employee 1 holds the day-10 GRAVES shift. -/
def stC9 : AssignState := ⟨[((10, .graves), [1])], [(1, [(10, .graves)])]⟩

/-- The score the scorer returns on gC9w and stC9. -/
def scC9 : SchedulingScore := ⟨-1710, 17, 1, []⟩

/-- Empty window, one NO_PREFERENCE employee holding one shift. -/
def gC10 : GenInput := ⟨1, 0, [bobND], [], []⟩

def stC10 : AssignState := ⟨[((5, .graves), [2])], [(2, [(5, .graves)])]⟩

/-- Empty window, the GRAVES-preferring employee holding two shifts. -/
def gW10 : GenInput := ⟨1, 0, [alice], [], []⟩

def stW10 : AssignState :=
  ⟨[((3, .swings), [1]), ((4, .days), [1])], [(1, [(3, .swings), (4, .days)])]⟩

/-- Two-day window, one employee, one active SHIFT_SPACING rule, used as
witness input for the AttributeError theorem. -/
def gC2w : GenInput :=
  ⟨20, 21, [bobND], [⟨.shift_spacing, 10, [("min_hours", 12)], true⟩], []⟩

/-- CLAIM C1. The spec (Scenario C) promises that with an active MAX_SHIFTS
rule of max_count = 3 the produced schedule assigns no employee more than 3
slots. The code never produces a schedule under such a rule: the first
eligibility test reaches the undefined helper _would_exceed_max_shifts and
generate_schedule raises AttributeError, evaluated here on a one-day window
with one active, available employee. -/
theorem maxShiftsRuleRunRaisesAttributeError :
    generateSchedule gMax 0 = .error .attributeError := by decide

/-- CLAIM C3. The spec promises that schedules returned by generate_schedule
never double-book an employee on one date. On this two-day input with one
employee and no rules the run raises TypeError while sorting slot-difficulty
tuples (ShiftType members are unorderable), so no schedule is returned; and
the eligibility list for a SWINGS slot still contains employee 1 although
employee 1 already holds the GRAVES shift of the same date, so no check
enforces the invariant either. -/
theorem noDoubleBookingUnenforcedCrash :
    generateSchedule gC3 0 = .error .typeError ∧
    getAvailableEmployees gC3 stC3 10 .swings = .ok [1] := by constructor <;> decide

/-- CLAIM C4. The spec promises that no assignment, including those made by
optimizer swaps, places an employee on an unavailable date. The swap below is
accepted and moves employee 1 onto day 11, a fixed day off for employee 1
(availability is false), because _try_swap consults only
_violates_constraints and never the availability map. -/
theorem trySwapIgnoresAvailability :
    trySwap gC4 stC4 1 10 .graves 2 11 .graves =
      .ok (true, ⟨[((10, .graves), [2]), ((11, .graves), [1])],
                  [(1, [(11, .graves)]), (2, [(10, .graves)])]⟩) ∧
    isAvailableId gC4 11 1 = false := by constructor <;> decide

/-- CLAIM C5. The spec says the greedy assigner gives a slot to a top-ranked
eligible employee under (preference match descending, assigned count
ascending): here that would be employee 1 (stated GRAVES preference, zero
shifts). The code assigns employee 2 (no preference match, one shift
already): the sort is ascending in (preference score, minus count), which
ranks the most loaded non-matching employee first, and the preference score
is identically 0 anyway because it compares a ShiftPreference member with a
ShiftType member. -/
theorem greedyPicksMostLoadedNonPreferring :
    initialAssignment gC5 stC5 [(10, .graves)] =
      .ok ⟨[((9, .days), [2]), ((10, .graves), [2])], [(2, [(9, .days), (10, .graves)])]⟩ ∧
    getAvailableEmployees gC5 stC5 10 .graves = .ok [2, 1] ∧
    ShiftPreference.pyEqShiftType .graves .graves = false := by
  refine ⟨by decide, by decide, by decide⟩

/-- CLAIM C6. The spec permits any window with start at most end, including a
single-day window with start_date = end_date. The code raises on such input:
generate_schedule dies with TypeError while sorting the difficulty entries,
and even the SchedulePeriod constructor alone rejects start_date = end_date
with ValueError (end must be strictly after start). -/
theorem singleDayWindowRaises :
    generateSchedule gC6 10 = .error .typeError ∧
    mkSchedulePeriod gC6 10 [] = .error .valueError := by constructor <;> decide

/-- CLAIM C7. The spec promises optimizer monotonicity for runs that return
normally, but no run returns normally: on this three-day input with two
employees and no rules, generate_schedule raises TypeError while sorting the
slot-difficulty tuples, before the optimizer is ever reached. -/
theorem optimizerMonotonicityUnreachableCrash :
    generateSchedule gC7 0 = .error .typeError := by decide

/-- CLAIM C2, counterexample. The claim predicts AttributeError for an
active rule of any type whenever assignments would be made. With an active
MIN_STAFF rule (which no per-assignment branch of _violates_constraints
inspects) and an eligible employee, the run instead raises TypeError in the
difficulty sort, so the claim fails for the MIN_STAFF and SKILL_REQUIREMENT
rule types. -/
theorem activeRuleAttributeErrorCounterexample :
    (∃ r ∈ gMin.rules, r.is_active = true) ∧
    (∃ d ∈ dateRange gMin.start_date gMin.end_date,
      ∃ e ∈ gMin.employees, e.is_active = true ∧ isAvailableId gMin d e.id = true) ∧
    generateSchedule gMin 0 = .error .typeError ∧
    generateSchedule gMin 0 ≠ .error .attributeError := by
  refine ⟨by decide, by decide, by decide, by decide⟩

/-- Bound on the while-loop counter of _optimize_schedule: the counter grows
by one per executed pass and the loop runs out of fuel at max_iterations, so
the final counter is at most the initial counter plus the fuel; moreover a
normal exit below the cap can only come from a pass that reported no
improvement. -/
theorem optimizeLoopBound (g : GenInput) (fuel : Nat) :
    ∀ (st : AssignState) (iterations : Nat),
      (optimizeLoop g fuel st iterations).2 ≤ iterations + fuel ∧
      ∀ st1, (optimizeLoop g fuel st iterations).1 = .ok st1 →
        (optimizeLoop g fuel st iterations).2 = iterations + fuel ∨
        ∃ s0, optimizePass g s0 = .ok (st1, false) := by
  induction fuel with
  | zero =>
      intro st iterations
      refine ⟨by simp [optimizeLoop], ?_⟩
      intro st1 h
      left
      simp [optimizeLoop]
  | succ fuel ih =>
      intro st iterations
      simp only [optimizeLoop]
      cases hp : optimizePass g st with
      | error e =>
          refine ⟨by simp only []; omega, ?_⟩
          intro st1 h
          simp at h
      | ok p =>
          obtain ⟨st', improved⟩ := p
          cases improved with
          | false =>
              simp only [Bool.false_eq_true, if_false]
              refine ⟨by omega, ?_⟩
              intro st1 h
              simp at h
              right
              refine ⟨st, ?_⟩
              rw [hp, h]
          | true =>
              simp only [if_true]
              have hrec := ih st' (iterations + 1)
              refine ⟨by have := hrec.1; omega, ?_⟩
              intro st1 h
              rcases hrec.2 st1 h with h1 | h2
              · left; omega
              · right; exact h2

/-- CLAIM C8. The local-search optimizer halts after at most 1000 passes:
the iterations counter of _optimize_schedule never exceeds 1000, and a run
that ends normally either used up the full 1000 passes or ended because its
final pass committed no improving swap (a propagated exception from a rule
check is the only other exit, and it also halts the loop within the bound). -/
theorem optimizerHaltsWithin1000 (g : GenInput) (st : AssignState) :
    (optimizeSchedule g st).2 ≤ 1000 ∧
    ∀ st1, (optimizeSchedule g st).1 = .ok st1 →
      (optimizeSchedule g st).2 = 1000 ∨ ∃ s0, optimizePass g s0 = .ok (st1, false) := by
  have h := optimizeLoopBound g 1000 st 0
  simpa [optimizeSchedule] using h

/-- Witness for optimizerHaltsWithin1000 at a concrete empty input: the
optimizer returns after one pass with no improvement. -/
theorem optimizerHaltsWithin1000Witness :
    (optimizeSchedule gC8 ⟨[], []⟩).1 = .ok ⟨[], []⟩ ∧
    ((optimizeSchedule gC8 ⟨[], []⟩).2 = 1000 ∨
      ∃ s0, optimizePass gC8 s0 = .ok (⟨[], []⟩, false)) :=
  ⟨by decide, (optimizerHaltsWithin1000 gC8 ⟨[], []⟩).2 ⟨[], []⟩ (by decide)⟩

/-- Reduction of bind on an ok value in the Except monad. -/
theorem exceptBindOk {ε α β : Type} (a : α) (k : α → Except ε β) :
    ((Except.ok a : Except ε α) >>= k) = k a := rfl

/-- Reduction of bind on an error value in the Except monad. -/
theorem exceptBindErr {ε α β : Type} (e : ε) (k : α → Except ε β) :
    ((Except.error e : Except ε α) >>= k) = .error e := rfl

/-- Spec-side shortfall of one slot, following the words of the spec: the
maximum of 0 and required minus assigned, as integers. -/
def slotShortfall (st : AssignState) (d : Date) (t : ShiftType) : Int :=
  max 0 ((t.min_staff_required : Int) - ((lookupSlot st (d, t)).length : Int))

/-- One coverage step agrees with the spec-side shortfall. -/
theorem unfilledStepCast (st : AssignState) (d : Date) (acc : Nat) (t : ShiftType) :
    ((unfilledStep st d acc t : Nat) : Int) = acc + slotShortfall st d t := by
  unfold unfilledStep slotShortfall
  split
  next h =>
    rw [max_eq_right (by omega)]
    push_cast [Nat.cast_sub (le_of_lt h)]
    ring
  next h =>
    rw [max_eq_left (by omega)]
    simp

/-- The inner coverage fold over a list of shift types sums the shortfalls. -/
theorem innerUnfilledCast (st : AssignState) (d : Date) (l : List ShiftType) :
    ∀ acc : Nat,
      ((l.foldl (unfilledStep st d) acc : Nat) : Int) = acc + (l.map (slotShortfall st d)).sum := by
  induction l with
  | nil => intro acc; simp
  | cons t ts ih =>
      intro acc
      simp only [List.foldl_cons, List.map_cons, List.sum_cons]
      rw [ih, unfilledStepCast]
      ring

/-- The outer coverage fold over a list of dates sums the shortfalls. -/
theorem outerUnfilledCast (st : AssignState) (l : List Date) :
    ∀ acc : Nat,
      ((l.foldl (fun acc current => ShiftType.all.foldl (unfilledStep st current) acc) acc : Nat) : Int)
        = acc + (l.map (fun d => (ShiftType.all.map (slotShortfall st d)).sum)).sum := by
  induction l with
  | nil => intro acc; simp
  | cons d ds ih =>
      intro acc
      simp only [List.foldl_cons, List.map_cons, List.sum_cons]
      rw [ih, innerUnfilledCast]
      ring

/-- The unfilled counter is the total shortfall over the window. -/
theorem countUnfilledCast (g : GenInput) (st : AssignState) :
    ((countUnfilled g st : Nat) : Int)
      = ((dateRange g.start_date g.end_date).map (fun d => (ShiftType.all.map (slotShortfall st d)).sum)).sum := by
  unfold countUnfilled
  rw [outerUnfilledCast]
  simp

/-- CLAIM C9. Whenever _evaluate_schedule returns a score, the total equals
the negation of unfilled times 100 plus mismatches times 10 plus the length
of the violations list times 50, with those exact constant weights, and the
unfilled count is the sum over all window slots of max(0, required minus
assigned). With an active rule the scorer instead raises (the rule check
helper is undefined), so the returning runs are exactly those with no
active rule reached. -/
theorem scorerTotalFormula (g : GenInput) (st : AssignState) (sc : SchedulingScore)
    (h : evaluateSchedule g st = .ok sc) :
    sc.total_score
      = -((sc.unfilled_shifts * 100 + sc.preference_mismatches * 10 + sc.rule_violations.length * 50 : Nat) : Int) ∧
    (sc.unfilled_shifts : Int)
      = ((dateRange g.start_date g.end_date).map (fun d => (ShiftType.all.map (slotShortfall st d)).sum)).sum := by
  unfold evaluateSchedule at h
  cases hf : st.employee_shifts.foldlM (evalEmployeeStep g) ((0 : Nat), ([] : List String)) with
  | error e => rw [hf] at h; cases h
  | ok mv =>
      rw [hf] at h
      cases h
      exact ⟨rfl, countUnfilledCast g st⟩

/-- Witness for scorerTotalFormula on a concrete two-day input with one
assignment: the score is total -1710, 17 unfilled, 1 mismatch, no
violations. -/
theorem scorerTotalFormulaWitness :
    evaluateSchedule gC9w stC9 = .ok scC9 ∧
    (scC9.total_score
        = -((scC9.unfilled_shifts * 100 + scC9.preference_mismatches * 10 + scC9.rule_violations.length * 50 : Nat) : Int) ∧
      (scC9.unfilled_shifts : Int)
        = ((dateRange gC9w.start_date gC9w.end_date).map (fun d => (ShiftType.all.map (slotShortfall stC9 d)).sum)).sum) :=
  ⟨by decide, scorerTotalFormula gC9w stC9 scC9 (by decide)⟩

/-- The mismatch loop adds one per assigned shift, unconditionally: the
Python comparison shift_type != shift_preference crosses two Enum classes
and is always true. -/
theorem foldlCountAll {α : Type} (l : List α) :
    ∀ acc : Nat, l.foldl (fun m _ => m + 1) acc = acc + l.length := by
  induction l with
  | nil => intro acc; simp
  | cons s ss ih =>
      intro acc
      simp only [List.foldl_cons, List.length_cons]
      rw [ih]
      omega

theorem countMismatchesAdds (employee : Employee) (shifts : List (Date × ShiftType)) :
    ∀ acc : Nat, countMismatches employee shifts acc = acc + shifts.length := by
  intro acc
  have h : countMismatches employee shifts acc = shifts.foldl (fun m _ => m + 1) acc := by
    simp [countMismatches, ShiftPreference.pyEqShiftType]
  rw [h, foldlCountAll]

/-- One evaluation step leaves the mismatch counter increased by exactly
the number of shifts of the processed employee entry. -/
theorem evalEmployeeStepFst (g : GenInput) (acc : Nat × List String)
    (entry : Int × List (Date × ShiftType)) (acc1 : Nat × List String)
    (h : evalEmployeeStep g acc entry = .ok acc1) : acc1.1 = acc.1 + entry.2.length := by
  unfold evalEmployeeStep at h
  cases hn : pyNextEmployee g.employees entry.1 with
  | error e => rw [hn] at h; cases h
  | ok employee =>
      rw [hn] at h
      cases hv : evalRulesGo (sortedRules g) acc.2 with
      | error e => rw [hv] at h; cases h
      | ok v =>
          rw [hv] at h
          cases h
          exact countMismatchesAdds employee entry.2 acc.1

/-- The per-employee fold accumulates the total number of assigned shifts
into the mismatch counter. -/
theorem evalFoldMismatch (g : GenInput) (l : List (Int × List (Date × ShiftType))) :
    ∀ (acc mv : Nat × List String),
      l.foldlM (evalEmployeeStep g) acc = .ok mv →
      mv.1 = acc.1 + (l.map (fun entry => entry.2.length)).sum := by
  induction l with
  | nil =>
      intro acc mv h
      simp only [List.foldlM_nil] at h
      cases h
      simp
  | cons entry es ih =>
      intro acc mv h
      rw [List.foldlM_cons] at h
      cases hs : evalEmployeeStep g acc entry with
      | error e => rw [hs] at h; rw [exceptBindErr] at h; cases h
      | ok acc1 =>
          rw [hs, exceptBindOk] at h
          have h1 := evalEmployeeStepFst g acc entry acc1 hs
          have h2 := ih acc1 mv h
          simp only [List.map_cons, List.sum_cons]
          omega

/-- CLAIM C10, amended. The preference-mismatch count returned by the
scorer equals the total number of assignments in the state: every assigned
shift of every employee counts, including those of NO_PREFERENCE employees
and those matching the stated preference, because the comparison crosses
the ShiftType and ShiftPreference Enum classes and never holds. -/
theorem scorerCountsEveryAssignment (g : GenInput) (st : AssignState) (sc : SchedulingScore)
    (h : evaluateSchedule g st = .ok sc) :
    sc.preference_mismatches = (st.employee_shifts.map (fun entry => entry.2.length)).sum := by
  unfold evaluateSchedule at h
  cases hf : st.employee_shifts.foldlM (evalEmployeeStep g) ((0 : Nat), ([] : List String)) with
  | error e => rw [hf] at h; cases h
  | ok mv =>
      rw [hf] at h
      cases h
      have := evalFoldMismatch g st.employee_shifts ((0 : Nat), ([] : List String)) mv hf
      simpa using this

/-- Spec-side preference matching by member name, following the words of
the spec: a stated GRAVES, SWINGS or DAYS preference matches the shift type
of the same name and NO_PREFERENCE matches nothing. -/
def specPrefMatchesType : ShiftPreference → ShiftType → Bool
  | .graves, .graves => true
  | .swings, .swings => true
  | .days, .days => true
  | _, _ => false

/-- Spec-side mismatch count, following the words of the spec: one per
assignment whose employee has a stated preference (not NO_PREFERENCE)
different from the assigned shift type. -/
def specMismatchCount (employees : List Employee) (st : AssignState) : Nat :=
  st.employee_shifts.foldl (fun acc entry =>
    match employees.find? (fun e => e.id == entry.1) with
    | none => acc
    | some e => acc + (entry.2.filter (fun s =>
        (decide (e.shift_preference ≠ ShiftPreference.no_preference)) &&
        !(specPrefMatchesType e.shift_preference s.2))).length) 0

/-- CLAIM C10, counterexample. A NO_PREFERENCE employee holding one shift
is scored as 1 preference mismatch, while the claim (NO_PREFERENCE never
mismatches) predicts 0 for this state. -/
theorem scorerMismatchCounterexample :
    evaluateSchedule gC10 stC10 = .ok ⟨-10, 0, 1, []⟩ ∧
    specMismatchCount gC10.employees stC10 = 0 ∧
    bobND.shift_preference = .no_preference := by
  refine ⟨by decide, by decide, by decide⟩

/-- Witness for scorerCountsEveryAssignment: an employee with two assigned
shifts, one of which matches the stated preference by name, is scored 2
mismatches, the total number of assignments. -/
theorem scorerCountsEveryAssignmentWitness :
    evaluateSchedule gW10 stW10 = .ok ⟨-20, 0, 2, []⟩ ∧
    (SchedulingScore.mk (-20) 0 2 []).preference_mismatches
      = (stW10.employee_shifts.map (fun entry => entry.2.length)).sum :=
  ⟨by decide, scorerCountsEveryAssignment gW10 stW10 ⟨-20, 0, 2, []⟩ (by decide)⟩

/-- Membership is preserved by the stable rule insertion. -/
theorem memInsertRuleDesc (a x : SchedulingRule) (l : List SchedulingRule) :
    a ∈ insertRuleDesc x l ↔ a = x ∨ a ∈ l := by
  induction l with
  | nil => simp [insertRuleDesc]
  | cons y ys ih =>
      simp only [insertRuleDesc]
      split
      · simp
      · simp only [List.mem_cons, ih]
        tauto

/-- Membership is preserved by the insertion-sort fold. -/
theorem memRulesFold (l : List SchedulingRule) :
    ∀ (acc : List SchedulingRule) (a : SchedulingRule),
      a ∈ l.foldl (fun acc r => insertRuleDesc r acc) acc ↔ a ∈ acc ∨ a ∈ l := by
  induction l with
  | nil => intro acc a; simp
  | cons r rs ih =>
      intro acc a
      simp only [List.foldl_cons]
      rw [ih]
      simp only [memInsertRuleDesc, List.mem_cons]
      tauto

/-- The priority sort of the constructor keeps exactly the given rules. -/
theorem memSortedRules (g : GenInput) (r : SchedulingRule) :
    r ∈ sortedRules g ↔ r ∈ g.rules := by
  unfold sortedRules
  rw [memRulesFold]
  simp

/-- A validated CONSECUTIVE_DAYS rule carries its min_days parameter, so
the dict read preceding the undefined-method call succeeds. -/
theorem paramsValidConsecutive (r : SchedulingRule) (hv : r.paramsValid = true)
    (ht : r.rule_type = RuleType.consecutive_days) :
    ∃ n, pyDictGet r.parameters ("min_days") = .ok n := by
  unfold SchedulingRule.paramsValid at hv
  rw [ht] at hv
  simp only [requiredParams, List.all_cons, List.all_nil, Bool.and_true] at hv
  unfold pyDictGet
  cases hf : r.parameters.find? (fun prm => prm.1 == ("min_days")) with
  | none => rw [hf] at hv; simp at hv
  | some prm => exact ⟨prm.2, rfl⟩

/-- The rule loop of _violates_constraints raises AttributeError whenever
the list contains an active rule of one of the three per-assignment types
and all rules passed construction validation. -/
theorem violatesGoErr (rl : List SchedulingRule) :
    (∃ r ∈ rl, r.is_active = true ∧
      (r.rule_type = RuleType.consecutive_days ∨ r.rule_type = RuleType.max_shifts ∨
        r.rule_type = RuleType.shift_spacing)) →
    (∀ r ∈ rl, r.paramsValid = true) →
    violatesGo rl = .error .attributeError := by
  induction rl with
  | nil => intro hex _; simp at hex
  | cons r rs ih =>
      intro hex hv
      have hvr : r.paramsValid = true := hv r (List.mem_cons_self r rs)
      have hvs : ∀ q ∈ rs, q.paramsValid = true := fun q hq => hv q (List.mem_cons_of_mem r hq)
      by_cases hact : r.is_active = true
      · cases hrt : r.rule_type with
        | consecutive_days =>
            obtain ⟨n, hn⟩ := paramsValidConsecutive r hvr hrt
            simp [violatesGo, hact, hrt, hn]
        | max_shifts => simp [violatesGo, hact, hrt]
        | shift_spacing => simp [violatesGo, hact, hrt]
        | min_staff =>
            have hex' : ∃ q ∈ rs, q.is_active = true ∧
                (q.rule_type = RuleType.consecutive_days ∨ q.rule_type = RuleType.max_shifts ∨
                  q.rule_type = RuleType.shift_spacing) := by
              obtain ⟨q, hqmem, hq⟩ := hex
              rcases List.mem_cons.mp hqmem with hq1 | hq2
              · subst hq1; rw [hrt] at hq; rcases hq.2 with h | h | h <;> cases h
              · exact ⟨q, hq2, hq⟩
            simp only [violatesGo, hact, Bool.not_true, Bool.false_eq_true, if_false, hrt]
            exact ih hex' hvs
        | skill_requirement =>
            have hex' : ∃ q ∈ rs, q.is_active = true ∧
                (q.rule_type = RuleType.consecutive_days ∨ q.rule_type = RuleType.max_shifts ∨
                  q.rule_type = RuleType.shift_spacing) := by
              obtain ⟨q, hqmem, hq⟩ := hex
              rcases List.mem_cons.mp hqmem with hq1 | hq2
              · subst hq1; rw [hrt] at hq; rcases hq.2 with h | h | h <;> cases h
              · exact ⟨q, hq2, hq⟩
            simp only [violatesGo, hact, Bool.not_true, Bool.false_eq_true, if_false, hrt]
            exact ih hex' hvs
      · have hact' : r.is_active = false := by
          cases hb : r.is_active
          · rfl
          · exact absurd hb hact
        have hex' : ∃ q ∈ rs, q.is_active = true ∧
            (q.rule_type = RuleType.consecutive_days ∨ q.rule_type = RuleType.max_shifts ∨
              q.rule_type = RuleType.shift_spacing) := by
          obtain ⟨q, hqmem, hq⟩ := hex
          rcases List.mem_cons.mp hqmem with hq1 | hq2
          · subst hq1; exact absurd hq.1 hact
          · exact ⟨q, hq2, hq⟩
        simp only [violatesGo, hact', Bool.not_false, if_true]
        exact ih hex' hvs

/-- A roster entry that is inactive or unavailable is skipped by the
filter step without touching the rules. -/
theorem availFilterStepSkip (g : GenInput) (st : AssignState) (d : Date) (t : ShiftType)
    (acc : List Int) (e : Employee) (h : ¬(e.is_active = true ∧ isAvailableId g d e.id = true)) :
    availFilterStep g st d t acc e = .ok acc := by
  unfold availFilterStep
  by_cases hact : e.is_active = true
  · have hav : isAvailableId g d e.id = false := by
      cases hb : isAvailableId g d e.id
      · rfl
      · exact absurd ⟨hact, hb⟩ h
    simp [hact, hav, pure, Except.pure]
  · have hact' : e.is_active = false := by
      cases hb : e.is_active
      · rfl
      · exact absurd hb hact
    simp [hact', pure, Except.pure]

/-- An active available roster entry reaches the rule check, which raises
when an active per-assignment rule exists. -/
theorem availFilterStepErr (g : GenInput) (st : AssignState) (d : Date) (t : ShiftType)
    (acc : List Int) (e : Employee) (hact : e.is_active = true)
    (hav : isAvailableId g d e.id = true)
    (hgo : violatesGo (sortedRules g) = .error .attributeError) :
    availFilterStep g st d t acc e = .error .attributeError := by
  unfold availFilterStep violatesConstraints
  simp only [hact, hav, Bool.not_true, Bool.false_eq_true, if_false, hgo]
  rw [exceptBindErr]

/-- The roster filter fold raises AttributeError as soon as it meets an
active available employee, under an active per-assignment rule. -/
theorem availFoldErr (g : GenInput) (st : AssignState) (d : Date) (t : ShiftType)
    (hgo : violatesGo (sortedRules g) = .error .attributeError) :
    ∀ (l : List Employee) (acc : List Int),
      (∃ e ∈ l, e.is_active = true ∧ isAvailableId g d e.id = true) →
      l.foldlM (availFilterStep g st d t) acc = .error .attributeError := by
  intro l
  induction l with
  | nil => intro acc hex; simp at hex
  | cons e es ih =>
      intro acc hex
      rw [List.foldlM_cons]
      by_cases he : e.is_active = true ∧ isAvailableId g d e.id = true
      · rw [availFilterStepErr g st d t acc e he.1 he.2 hgo, exceptBindErr]
      · rw [availFilterStepSkip g st d t acc e he, exceptBindOk]
        have hex' : ∃ q ∈ es, q.is_active = true ∧ isAvailableId g d q.id = true := by
          obtain ⟨q, hqmem, hq⟩ := hex
          rcases List.mem_cons.mp hqmem with hq1 | hq2
          · subst hq1; exact absurd hq he
          · exact ⟨q, hq2, hq⟩
        exact ih acc hex'

/-- When no roster entry is active and available the filter fold returns
its accumulator unchanged. -/
theorem availFoldOk (g : GenInput) (st : AssignState) (d : Date) (t : ShiftType) :
    ∀ (l : List Employee) (acc : List Int),
      (∀ e ∈ l, ¬(e.is_active = true ∧ isAvailableId g d e.id = true)) →
      l.foldlM (availFilterStep g st d t) acc = .ok acc := by
  intro l
  induction l with
  | nil => intro acc _; rfl
  | cons e es ih =>
      intro acc hall
      rw [List.foldlM_cons]
      rw [availFilterStepSkip g st d t acc e (hall e (List.mem_cons_self e es)), exceptBindOk]
      exact ih acc (fun q hq => hall q (List.mem_cons_of_mem e hq))

/-- The eligibility list computation raises AttributeError exactly at the
first active available employee, under an active per-assignment rule. -/
theorem getAvailErr (g : GenInput) (st : AssignState) (d : Date) (t : ShiftType)
    (hgo : violatesGo (sortedRules g) = .error .attributeError)
    (hex : ∃ e ∈ g.employees, e.is_active = true ∧ isAvailableId g d e.id = true) :
    getAvailableEmployees g st d t = .error .attributeError := by
  unfold getAvailableEmployees
  rw [availFoldErr g st d t hgo g.employees [] hex, exceptBindErr]

/-- With no active available employee the eligibility list is empty. -/
theorem getAvailOkNil (g : GenInput) (st : AssignState) (d : Date) (t : ShiftType)
    (hall : ∀ e ∈ g.employees, ¬(e.is_active = true ∧ isAvailableId g d e.id = true)) :
    getAvailableEmployees g st d t = .ok [] := by
  unfold getAvailableEmployees
  rw [availFoldOk g st d t g.employees [] hall, exceptBindOk]
  rfl

/-- Under an active per-assignment rule the difficulty loop raises
AttributeError whenever some listed slot has an active available employee. -/
theorem difficultyListErr (g : GenInput)
    (hgo : violatesGo (sortedRules g) = .error .attributeError) :
    ∀ l : List (Date × ShiftType),
      (∃ s ∈ l, ∃ e ∈ g.employees, e.is_active = true ∧ isAvailableId g s.1 e.id = true) →
      difficultyList g l = .error .attributeError := by
  intro l
  induction l with
  | nil => intro hex; simp at hex
  | cons s ss ih =>
      intro hex
      by_cases hs : ∃ e ∈ g.employees, e.is_active = true ∧ isAvailableId g s.1 e.id = true
      · have h1 : difficultyEntry g s = .error .attributeError := by
          unfold difficultyEntry
          rw [getAvailErr g ⟨[], []⟩ s.1 s.2 hgo hs, exceptBindErr]
        simp only [difficultyList]
        rw [h1, exceptBindErr]
      · have hall : ∀ e ∈ g.employees, ¬(e.is_active = true ∧ isAvailableId g s.1 e.id = true) := by
          intro e he hc
          exact hs ⟨e, he, hc⟩
        have h1 : difficultyEntry g s = .ok (0, s.1, s.2) := by
          unfold difficultyEntry
          rw [getAvailOkNil g ⟨[], []⟩ s.1 s.2 hall, exceptBindOk]
          rfl
        have hex' : ∃ q ∈ ss, ∃ e ∈ g.employees, e.is_active = true ∧ isAvailableId g q.1 e.id = true := by
          obtain ⟨q, hqmem, hq⟩ := hex
          rcases List.mem_cons.mp hqmem with hq1 | hq2
          · subst hq1; exact absurd hq hs
          · exact ⟨q, hq2, hq⟩
        simp only [difficultyList]
        rw [h1, exceptBindOk, ih hex', exceptBindErr]

/-- Every window date contributes a GRAVES slot to the requirement list. -/
theorem memRequiredGraves (g : GenInput) (d : Date)
    (hd : d ∈ dateRange g.start_date g.end_date) :
    (d, ShiftType.graves) ∈ generateRequiredShifts g := by
  unfold generateRequiredShifts
  rw [List.mem_flatMap]
  refine ⟨d, hd, ?_⟩
  rw [List.mem_flatMap]
  refine ⟨ShiftType.graves, by simp [ShiftType.all], ?_⟩
  rw [List.mem_replicate]
  exact ⟨by simp [ShiftType.min_staff_required], rfl⟩

/-- CLAIM C2, amended. Whenever the rule list contains an active rule of
one of the three per-assignment types (CONSECUTIVE_DAYS, MAX_SHIFTS,
SHIFT_SPACING), all rules passed construction validation, and some window
date has an active employee available on it (the condition under which the
greedy pass would make an assignment), generate_schedule raises
AttributeError: the first eligibility test reaches one of the undefined
helper methods, before any assignment is made. The undefined helpers are
_would_violate_consecutive_days, _would_exceed_max_shifts,
_would_violate_shift_spacing and _check_rule_violation. For active rules
of only the other two types the run raises TypeError instead (see the
counterexample). -/
theorem checkedRuleRunRaisesAttributeError (g : GenInput) (today : Date)
    (hr : ∃ r ∈ g.rules, r.is_active = true ∧
      (r.rule_type = RuleType.consecutive_days ∨ r.rule_type = RuleType.max_shifts ∨
        r.rule_type = RuleType.shift_spacing))
    (hv : ∀ r ∈ g.rules, r.paramsValid = true)
    (he : ∃ d ∈ dateRange g.start_date g.end_date,
      ∃ e ∈ g.employees, e.is_active = true ∧ isAvailableId g d e.id = true) :
    generateSchedule g today = .error .attributeError := by
  have hr' : ∃ r ∈ sortedRules g, r.is_active = true ∧
      (r.rule_type = RuleType.consecutive_days ∨ r.rule_type = RuleType.max_shifts ∨
        r.rule_type = RuleType.shift_spacing) := by
    obtain ⟨r, hrmem, hrp⟩ := hr
    exact ⟨r, (memSortedRules g r).mpr hrmem, hrp⟩
  have hv' : ∀ r ∈ sortedRules g, r.paramsValid = true :=
    fun r hrmem => hv r ((memSortedRules g r).mp hrmem)
  have hgo : violatesGo (sortedRules g) = .error .attributeError :=
    violatesGoErr (sortedRules g) hr' hv'
  obtain ⟨d, hd, hde⟩ := he
  have hlist : difficultyList g (generateRequiredShifts g) = .error .attributeError :=
    difficultyListErr g hgo (generateRequiredShifts g)
      ⟨(d, ShiftType.graves), memRequiredGraves g d hd, hde⟩
  unfold generateSchedule
  rw [hlist, exceptBindErr]

/-- Witness for checkedRuleRunRaisesAttributeError at a concrete input: a
two-day window, one active employee and one active SHIFT_SPACING rule. -/
theorem checkedRuleRunRaisesAttributeErrorWitness :
    (∃ r ∈ gC2w.rules, r.is_active = true ∧
      (r.rule_type = RuleType.consecutive_days ∨ r.rule_type = RuleType.max_shifts ∨
        r.rule_type = RuleType.shift_spacing)) ∧
    (∀ r ∈ gC2w.rules, r.paramsValid = true) ∧
    (∃ d ∈ dateRange gC2w.start_date gC2w.end_date,
      ∃ e ∈ gC2w.employees, e.is_active = true ∧ isAvailableId gC2w d e.id = true) ∧
    generateSchedule gC2w 0 = .error .attributeError :=
  ⟨by decide, by decide, by decide,
    checkedRuleRunRaisesAttributeError gC2w 0 (by decide) (by decide) (by decide)⟩
